import Mathlib

/-!
Verification development for the chart-streams history-driven version indexer
(`pkg/chartstreams/index/git.go`).

The Go source is shallowly embedded as follows.

* `ChartNameVersion` and `CommitInfo` mirror the Go structs of the same names
  (`plumbing.Hash` is modelled as `Nat`, `time.Time` as `Int`, a Unix instant).
* The Go map `versionCommitMap` is modelled as an association list with at most
  one binding per key; `mapSet` models the assignment `m[k] = v` and `mapFind`
  models lookup.  Go maps are unordered, so any enumeration of the bindings is a
  permutation of `mapKeys`; the catalog derivation is therefore additionally
  parametrised by an enumeration (`deriveCatalogWith`).
* Go `error` values are modelled by `GoError`.  The package-local sentinel
  `ErrChartNotFound = errors.New("chart not found")` is a unique allocation and
  Go compares errors by identity, so no error produced by the external
  collaborators (the billy filesystem, `ioutil.ReadAll`,
  `chartutil.UnmarshalChartfile`, go-git) can ever equal it; external errors are
  therefore drawn from the separate type `ExtError` and injected via
  `GoError.ext`.
* `getChartVersion` reads, for one candidate path, the responses of the
  filesystem and the chart parser; a `DirEntry` bundles those responses for the
  entry's `chartPath` (`Lstat`, `Open` of `Chart.yaml`, `ReadAll`,
  `UnmarshalChartfile`).
* The commit walk of `Build` (lines 88–122) consumes the iterator produced by
  `AllCommits`.  go-git's `commitIter.Next` yields each commit with a nil error
  and then returns `(nil, io.EOF)` at exhaustion; a trace is hence a list of
  `IterNext` events (a commit together with the repository responses for that
  iteration, or a non-EOF iterator failure), followed implicitly by EOF.  The
  source's loop head `if err != nil && err != io.EOF { break }` means that on a
  non-EOF failure the loop breaks (and the partial index is built), while on EOF
  the body keeps running with `c = nil`: `Worktree()` is still called, and then
  `w.Checkout(&git.CheckoutOptions{Hash: c.Hash})` dereferences the nil commit,
  which is a runtime panic.  `LoopOutcome.nilPanic` records that outcome.
-/

namespace ChartStreams

/-- Key of the version→commit map: Go struct `ChartNameVersion` (git.go:20). -/
structure ChartNameVersion where
  name : String
  version : String
deriving DecidableEq, Repr

/-- Value of the version→commit map: Go struct `repo.CommitInfo`, holding the
commit timestamp and hash. -/
structure CommitInfo where
  time : Int
  hash : Nat
deriving DecidableEq, Repr

/-- Errors produced by the external collaborators (filesystem, chart parser,
go-git).  None of these can be the package-local sentinel `ErrChartNotFound`,
because Go compares errors by identity and the sentinel is a fresh allocation
private to the `index` package. -/
inductive ExtError where
  | fs (msg : String)
  | parse (msg : String)
  | git (msg : String)
deriving DecidableEq, Repr

/-- Message carried by an external error (Go `err.Error()`). -/
def ExtError.message : ExtError → String
  | .fs m => m
  | .parse m => m
  | .git m => m

/-- Go `error` values as seen inside the `index` package: the sentinel
`ErrChartNotFound` (git.go:79), an external collaborator's error, or an error
freshly created with `fmt.Errorf`. -/
inductive GoError where
  | chartNotFound
  | ext (e : ExtError)
  | wrapped (msg : String)
deriving DecidableEq, Repr

/-- The parsed `Chart.yaml` (`chart.Metadata` as returned by
`chartutil.UnmarshalChartfile`); only the field read by the indexer is kept. -/
structure ChartYaml where
  version : String
deriving DecidableEq, Repr

/-- Go method `chartYaml.GetVersion()`. -/
def ChartYaml.GetVersion (c : ChartYaml) : String := c.version

/-- Result of `Lstat`; only the field read by the indexer is kept. -/
structure FileInfo where
  isDir : Bool
deriving DecidableEq, Repr

/-- One candidate directory entry of `ReadDir(basePath)`, together with the
responses the filesystem and the parser give for this entry's `chartPath`
during `getChartVersion` (git.go:47–77): the `Lstat` result, the result of
opening `Chart.yaml` directly beneath the path, the `ReadAll` result, and the
`UnmarshalChartfile` result. -/
structure DirEntry where
  name : String
  lstat : Except ExtError FileInfo
  openChartYaml : Except ExtError Unit
  readAll : Except ExtError Unit
  unmarshal : Except ExtError ChartYaml

/-- Embedding of `getChartVersion` (git.go:47–77).  Mirrors the source line by
line; note that in the `!chartDirInfo.IsDir()` branch (git.go:53–55) the source
returns the variable `err`, which at that point is the nil error from the
successful `Lstat`, so the function returns `("", nil)` there. -/
def getChartVersion (e : DirEntry) : String × Option GoError :=
  match e.lstat with
  | .error err => ("", some (.ext err))
  | .ok chartDirInfo =>
    if !chartDirInfo.isDir then
      ("", none)
    else
      match e.openChartYaml with
      | .error err => ("", some (.ext err))
      | .ok _ =>
        match e.readAll with
        | .error err => ("", some (.ext err))
        | .ok _ =>
          match e.unmarshal with
          | .error err => ("", some (.ext err))
          | .ok chartYaml => (chartYaml.GetVersion, none)

/-- The builder's `versionCommitMap`: an association list with at most one
binding per key, modelling the unordered Go map. -/
abbrev VersionCommitMap := List (ChartNameVersion × CommitInfo)

/-- Model of the Go map assignment `m[k] = v`: the new binding replaces any
existing binding for `k`. -/
def mapSet (m : VersionCommitMap) (k : ChartNameVersion) (v : CommitInfo) :
    VersionCommitMap :=
  (k, v) :: m.filter (fun p => !(p.1 == k))

/-- Model of the Go map lookup `m[k]`. -/
def mapFind (m : VersionCommitMap) (k : ChartNameVersion) : Option CommitInfo :=
  (m.find? (fun p => p.1 == k)).map Prod.snd

/-- The key set of the map, in one (arbitrary) enumeration order. -/
def mapKeys (m : VersionCommitMap) : List ChartNameVersion := m.map Prod.fst

/-- Embedding of `addChartNameVersionToCommitMap` (git.go:38–44): an
unconditional map assignment, with no comparison against any binding already
present. -/
def addChartNameVersionToCommitMap (m : VersionCommitMap) (name version : String)
    (hash : Nat) (t : Int) : VersionCommitMap :=
  mapSet m ⟨name, version⟩ ⟨t, hash⟩

/-- A commit as read by the walk: `c.Hash` and `c.Committer.When`. -/
structure Commit where
  hash : Nat
  committerWhen : Int
deriving DecidableEq, Repr

/-- The inner candidate loop of `Build` (git.go:109–121): for each entry,
`getChartVersion`; a nil error records the pair, the sentinel
`ErrChartNotFound` skips the entry, and any other error is returned,
aborting the build. -/
def processEntries (c : Commit) :
    List DirEntry → VersionCommitMap → Except GoError VersionCommitMap
  | [], m => .ok m
  | entry :: rest, m =>
    match getChartVersion entry with
    | (chartVersion, errOpt) =>
      match errOpt with
      | some err =>
        if err == GoError.chartNotFound then
          processEntries c rest m
        else
          .error err
      | none =>
        processEntries c rest
          (addChartNameVersionToCommitMap m entry.name chartVersion c.hash
            c.committerWhen)

/-- The repository's responses for one iteration of the walk that obtained a
commit: the `Worktree()` result, the `Checkout` result for the commit's hash,
and the `ReadDir(basePath)` result. -/
structure CommitStep where
  commit : Commit
  worktree : Except ExtError Unit
  checkout : Except ExtError Unit
  readDir : Except ExtError (List DirEntry)

/-- The per-commit body of the walk (git.go:94–121): `Worktree`, `Checkout`,
`ReadDir`, then the candidate loop; each failing step returns its error,
aborting the build. -/
def processCommitStep (s : CommitStep) (m : VersionCommitMap) :
    Except GoError VersionCommitMap :=
  match s.worktree with
  | .error e => .error (.ext e)
  | .ok _ =>
    match s.checkout with
    | .error e => .error (.ext e)
    | .ok _ =>
      match s.readDir with
      | .error e => .error (.ext e)
      | .ok entries => processEntries s.commit entries m

/-- Effect of the walk on `versionCommitMap` over a list of successfully
obtained commits, i.e. the loop of git.go:88–122 restricted to iterations in
which `commitIter.Next` returned a commit. -/
def processCommits : List CommitStep → VersionCommitMap →
    Except GoError VersionCommitMap
  | [], m => .ok m
  | s :: rest, m =>
    match processCommitStep s m with
    | .error e => .error e
    | .ok m2 => processCommits rest m2

/-- One response of `commitIter.Next`: either a commit (with the repository's
responses for that iteration) or a non-EOF iterator failure.  After the list of
events is exhausted, `Next` answers `(nil, io.EOF)`. -/
inductive IterNext where
  | commit (s : CommitStep)
  | fail (e : ExtError)

/-- Outcome of the walk loop (git.go:88–122). -/
inductive LoopOutcome where
  | abort (e : GoError)
  | broke (m : VersionCommitMap)
  | nilPanic

/-- Embedding of the walk loop (git.go:88–122).  The loop head is
`if err != nil && err != io.EOF { break }`: a non-EOF failure of `Next` breaks
out of the loop with the map accumulated so far, while at EOF the body keeps
running with the nil commit — `Worktree()` is still consulted (its error would
be returned), and otherwise `c.Hash` on the nil commit is a nil-pointer panic,
recorded as `LoopOutcome.nilPanic`. -/
def buildLoop (eofWorktree : Except ExtError Unit) :
    List IterNext → VersionCommitMap → LoopOutcome
  | [], _ =>
    match eofWorktree with
    | .error e => .abort (.ext e)
    | .ok _ => .nilPanic
  | .fail _ :: _, m => .broke m
  | .commit s :: rest, m =>
    match processCommitStep s m with
    | .error e => .abort e
    | .ok m2 => buildLoop eofWorktree rest m2

/-- Go comparator passed to `sort.Slice` (git.go:131–139). -/
def chartLess (a b : ChartNameVersion) : Bool :=
  if a.name < b.name then
    true
  else if a.name = b.name then
    decide (a.version < b.version)
  else
    false

/-- `sort.Slice` over the collected keys: some permutation of the input that is
sorted with respect to `chartLess` (Go's sort guarantees exactly that for a
strict weak ordering; here `chartLess` is a strict total order on keys, so the
sorted permutation is unique — established below). -/
def sortCharts (l : List ChartNameVersion) : List ChartNameVersion :=
  List.insertionSort (fun a b => chartLess b a = false) l

/-- One public catalog entry as emitted by git.go:141–148: the `chart.Metadata`
passed to `indexFile.Add` (the source sets `Name` and `ApiVersion` and leaves
`Version` at its zero value, the empty string), together with the other
arguments of the `Add` call. -/
structure CatalogEntry where
  name : String
  version : String
  apiVersion : String
  baseUrl : String
  filename : String
  digest : String
deriving DecidableEq, Repr

/-- The entry emitted for one key (git.go:141–148): metadata with
`Name: c.name` and `ApiVersion: c.version` (the chart version is stored in the
`ApiVersion` field; `Version` is never set),
`baseUrl = fmt.Sprintf("/chart/%s/%s", c.name, c.version)`, and the literal
`Add` arguments `"chart.tgz"` and `"deadbeef"`. -/
def mkEntry (c : ChartNameVersion) : CatalogEntry :=
  { name := c.name
    version := ""
    apiVersion := c.version
    baseUrl := "/chart/" ++ c.name ++ "/" ++ c.version
    filename := "chart.tgz"
    digest := "deadbeef" }

/-- The emission loop of git.go:141–148 over an already sorted key list. -/
def mkCatalog (ks : List ChartNameVersion) : List CatalogEntry :=
  ks.map mkEntry

/-- Catalog derivation (git.go:124–148) from one enumeration of the map's
keys: sort, then emit.  The enumeration of a Go map is nondeterministic, which
is the only nondeterminism of the derivation. -/
def deriveCatalogWith (enum : List ChartNameVersion) : List CatalogEntry :=
  mkCatalog (sortCharts enum)

/-- Catalog derivation at the canonical enumeration of the association list. -/
def deriveCatalog (m : VersionCommitMap) : List CatalogEntry :=
  deriveCatalogWith (mapKeys m)

/-- The `Index` value returned by `Build` (git.go:150–153): the public index
file (as the sequence of emitted entries) and the version→commit map. -/
structure Index where
  indexFile : List CatalogEntry
  chartNameVersionToCommitMap : VersionCommitMap
deriving DecidableEq, Repr

/-- git.go:124–155: build the index from the map, at a chosen key
enumeration. -/
def deriveIndexWith (enum : List ChartNameVersion) (m : VersionCommitMap) :
    Index :=
  { indexFile := deriveCatalogWith enum
    chartNameVersionToCommitMap := m }

/-- git.go:124–155 at the canonical enumeration. -/
def deriveIndex (m : VersionCommitMap) : Index :=
  deriveIndexWith (mapKeys m) m

/-- Result of `Build`: a built index, an error return, or the nil-pointer
panic of the EOF iteration. -/
inductive BuildResult where
  | ok (idx : Index)
  | err (e : GoError)
  | nilPanic
deriving DecidableEq, Repr

/-- A repository trace: the `AllCommits` response, and, when the walk reaches
EOF, the `Worktree()` response of that final iteration. -/
structure RepoTrace where
  allCommits : Except ExtError (List IterNext)
  eofWorktree : Except ExtError Unit

/-- Embedding of `Build` (git.go:81–156): obtain the iterator (a failure is
wrapped with `fmt.Errorf`), run the walk loop from the empty map
(`NewGitChartIndexBuilder` starts with an empty map, git.go:159–164), and on
`break` derive the catalog and return the index with a nil error. -/
def Build (tr : RepoTrace) : BuildResult :=
  match tr.allCommits with
  | .error e =>
    .err (.wrapped ("Initialize(): error getting commit iterator: " ++ e.message))
  | .ok events =>
    match buildLoop tr.eofWorktree events [] with
    | .abort e => .err e
    | .nilPanic => .nilPanic
    | .broke m => .ok (deriveIndex m)

/-! ### Order theory for the sort comparator

`chartLess` is the strict lexicographic order on `(name, version)` under Go's
byte-wise string comparison.  Lean's `String` order is lexicographic on code
points, which coincides with Go's byte-wise order on the UTF-8 encoding, since
UTF-8 preserves code-point order.  We bridge `chartLess` to the lexicographic
product order to obtain totality, transitivity and antisymmetry. -/

/-- The key of a `ChartNameVersion` in the lexicographic product order. -/
def keyLex (c : ChartNameVersion) : Lex (String × String) :=
  toLex (c.name, c.version)

theorem keyLex_injective : Function.Injective keyLex := by
  intro a b h
  have h2 : (a.name, a.version) = (b.name, b.version) := toLex.injective h
  cases a
  cases b
  simpa using h2

theorem chartLess_eq_true_iff (a b : ChartNameVersion) :
    chartLess a b = true ↔ keyLex a < keyLex b := by
  rw [keyLex, keyLex, Prod.Lex.lt_iff]
  unfold chartLess
  by_cases h1 : a.name < b.name
  · simp [h1]
  · by_cases h2 : a.name = b.name
    · simp [h1, h2]
    · simp [h1, h2]

theorem chartLess_eq_false_iff (a b : ChartNameVersion) :
    chartLess b a = false ↔ keyLex a ≤ keyLex b := by
  rw [← not_lt, ← chartLess_eq_true_iff]
  simp

/-- The non-strict relation with respect to which `sortCharts` sorts. -/
instance : IsTotal ChartNameVersion (fun a b => chartLess b a = false) :=
  ⟨fun a b => by
    rw [chartLess_eq_false_iff, chartLess_eq_false_iff]
    exact le_total (keyLex a) (keyLex b)⟩

instance : IsTrans ChartNameVersion (fun a b => chartLess b a = false) :=
  ⟨fun a b c hab hbc => by
    rw [chartLess_eq_false_iff] at hab hbc ⊢
    exact le_trans hab hbc⟩

instance : IsAntisymm ChartNameVersion (fun a b => chartLess b a = false) :=
  ⟨fun a b hab hba => by
    rw [chartLess_eq_false_iff] at hab hba
    exact keyLex_injective (le_antisymm hab hba)⟩

theorem sorted_sortCharts (l : List ChartNameVersion) :
    List.Sorted (fun a b => chartLess b a = false) (sortCharts l) :=
  List.sorted_insertionSort _ l

theorem perm_sortCharts (l : List ChartNameVersion) :
    (sortCharts l).Perm l :=
  List.perm_insertionSort _ l

/-- Sorting with the source's comparator is invariant under permutation of the
input: the comparator is a strict total order on keys, so the sorted
permutation is unique. -/
theorem sortCharts_perm_eq {l₁ l₂ : List ChartNameVersion} (h : l₁.Perm l₂) :
    sortCharts l₁ = sortCharts l₂ :=
  List.eq_of_perm_of_sorted
    ((perm_sortCharts l₁).trans (h.trans (perm_sortCharts l₂).symm))
    (sorted_sortCharts l₁) (sorted_sortCharts l₂)

/-! ### Map lemmas -/

theorem mapFind_mapSet_self (m : VersionCommitMap) (k : ChartNameVersion)
    (v : CommitInfo) : mapFind (mapSet m k v) k = some v := by
  simp [mapFind, mapSet, List.find?]

theorem mapSet_count_one (m : VersionCommitMap) (k : ChartNameVersion)
    (v : CommitInfo) :
    ((mapSet m k v).filter (fun p => p.1 == k)).length = 1 := by
  unfold mapSet
  rw [List.filter_cons]
  simp [List.filter_filter]

/-! ### Concrete fixtures used by counterexamples and witnesses -/

/-- A well-formed chart directory entry: a directory named `name` whose
`Chart.yaml` opens, reads and parses to the given version. -/
def chartEntry (name version : String) : DirEntry :=
  { name := name
    lstat := .ok ⟨true⟩
    openChartYaml := .ok ()
    readAll := .ok ()
    unmarshal := .ok ⟨version⟩ }

/-- A fully successful walk iteration for a commit with the given hash and
timestamp whose base path lists exactly one chart `name`/`version`. -/
def chartStep (name version : String) (hash : Nat) (t : Int) : CommitStep :=
  { commit := ⟨hash, t⟩
    worktree := .ok ()
    checkout := .ok ()
    readDir := .ok [chartEntry name version] }

/-- A directory candidate with no `Chart.yaml` beneath it: `Lstat` sees a
directory, but opening `Chart.yaml` fails with the filesystem's
file-does-not-exist error. -/
def noYamlEntry : DirEntry :=
  { name := "not-a-chart"
    lstat := .ok ⟨true⟩
    openChartYaml := .error (.fs "file does not exist")
    readAll := .ok ()
    unmarshal := .ok ⟨""⟩ }

/-- A candidate that exists but is not a directory (e.g. a stray file under
the base path). -/
def nonDirEntry : DirEntry :=
  { name := "README.md"
    lstat := .ok ⟨false⟩
    openChartYaml := .error (.fs "file does not exist")
    readAll := .ok ()
    unmarshal := .ok ⟨""⟩ }

/-- A candidate whose `Lstat` itself fails. -/
def lstatFailEntry : DirEntry :=
  { name := "ghost"
    lstat := .error (.fs "lstat failure")
    openChartYaml := .ok ()
    readAll := .ok ()
    unmarshal := .ok ⟨""⟩ }

/-! ### Claims -/

/-- Claim C1, counterexample.  Two commits both declare chart
`("foo", "1.0.0")`; the first visited (`hash 1`) is chronologically earlier
(`time 1 < time 2`).  After the walk the map holds exactly one entry for the
key, but it is pinned to the LATER commit's hash and timestamp `⟨2, 2⟩`, not
the earlier one's — refuting "pinned to C1's commit hash and timestamp, never
C2's". -/
theorem earliest_commit_wins_counterexample :
    (chartStep "foo" "1.0.0" 1 1).commit.committerWhen
        < (chartStep "foo" "1.0.0" 2 2).commit.committerWhen ∧
    processCommits [chartStep "foo" "1.0.0" 1 1, chartStep "foo" "1.0.0" 2 2] []
        = .ok [(⟨"foo", "1.0.0"⟩, ⟨2, 2⟩)] ∧
    mapFind [(⟨"foo", "1.0.0"⟩, ⟨2, 2⟩)] ⟨"foo", "1.0.0"⟩ = some ⟨2, 2⟩ ∧
    (⟨2, 2⟩ : CommitInfo) ≠ ⟨1, 1⟩ :=
  ⟨by decide, by rfl, by rfl, by decide⟩

/-- Claim C1, amended: when two commits declaring the same `(name, version)`
are visited in either chronological direction, the map afterwards holds exactly
one entry for the key, pinned to the hash and timestamp of the commit visited
LAST — `addChartNameVersionToCommitMap` assigns unconditionally, so the walk's
visitation order alone decides, and the commits' timestamps play no role. -/
theorem last_visited_commit_wins (h₁ h₂ : Nat) (t₁ t₂ : Int) :
    processCommits
        [chartStep "foo" "1.0.0" h₁ t₁, chartStep "foo" "1.0.0" h₂ t₂] []
      = .ok [(⟨"foo", "1.0.0"⟩, ⟨t₂, h₂⟩)] ∧
    ∀ (m : VersionCommitMap) (name version : String) (hash : Nat) (t : Int),
      mapFind (addChartNameVersionToCommitMap m name version hash t)
          ⟨name, version⟩ = some ⟨t, hash⟩ ∧
      ((addChartNameVersionToCommitMap m name version hash t).filter
          (fun p => p.1 == ⟨name, version⟩)).length = 1 := by
  refine ⟨by rfl, fun m name version hash t => ⟨?_, ?_⟩⟩
  · exact mapFind_mapSet_self m ⟨name, version⟩ ⟨t, hash⟩
  · exact mapSet_count_one m ⟨name, version⟩ ⟨t, hash⟩

/-- Claim C2.  The walk head `if err != nil && err != io.EOF { break }` BREAKS
on a repository error from `commitIter.Next` instead of returning it: after one
successful commit, an iterator failure makes `Build` return a successfully
built partial index containing that commit's chart, with a nil error — the
build is not all-or-nothing. -/
theorem build_returns_partial_index_on_iterator_error :
    Build { allCommits := .ok [.commit (chartStep "foo" "1.0.0" 1 1),
                               .fail (.git "object not found")]
            eofWorktree := .ok () }
      = .ok { indexFile := [mkEntry ⟨"foo", "1.0.0"⟩]
              chartNameVersionToCommitMap := [(⟨"foo", "1.0.0"⟩, ⟨1, 1⟩)] } := by
  decide

/-- Claim C3.  A candidate directory lacking `Chart.yaml` is NOT skipped: the
filesystem's open error is returned by `getChartVersion`, it differs from the
sentinel `ErrChartNotFound`, and `Build` aborts with it — the later well-formed
chart in the same directory listing is never reached. -/
theorem missing_chart_yaml_aborts_build :
    processEntries ⟨1, 1⟩ [noYamlEntry, chartEntry "foo" "1.0.0"] []
      = .error (.ext (.fs "file does not exist")) ∧
    Build { allCommits :=
              .ok [.commit { commit := ⟨1, 1⟩
                             worktree := .ok ()
                             checkout := .ok ()
                             readDir := .ok [noYamlEntry,
                                             chartEntry "foo" "1.0.0"] }]
            eofWorktree := .ok () }
      = .err (.ext (.fs "file does not exist")) :=
  ⟨by rfl, by rfl⟩

/-- Claim C4.  The walk does NOT stop normally at the natural end of the
sequence: when `commitIter.Next` reports EOF the loop head does not break, the
body runs with the nil commit, and `Checkout(&git.CheckoutOptions{Hash:c.Hash})`
dereferences the nil pointer — both for an empty history and after a fully
successful walk, `Build` panics instead of proceeding to catalog derivation. -/
theorem build_panics_at_end_of_sequence :
    Build { allCommits := .ok [], eofWorktree := .ok () } = .nilPanic ∧
    Build { allCommits := .ok [.commit (chartStep "foo" "1.0.0" 1 1)]
            eofWorktree := .ok () } = .nilPanic :=
  ⟨by rfl, by rfl⟩

/-- Claim C5.  For a map with pairwise distinct keys (as the builder's Go map
guarantees), the derived catalog's entry sequence is strictly ordered: each
consecutive pair has strictly increasing names, or equal names and strictly
increasing version strings.  The chart version of an emitted entry is carried
in its `apiVersion` field (the source stores it there; see the C6 theorem). -/
theorem catalog_strictly_sorted (m : VersionCommitMap)
    (h : (mapKeys m).Nodup) :
    List.Chain'
      (fun e₁ e₂ => e₁.name < e₂.name ∨
        (e₁.name = e₂.name ∧ e₁.apiVersion < e₂.apiVersion))
      (deriveCatalog m) := by
  unfold deriveCatalog deriveCatalogWith mkCatalog
  rw [List.chain'_map]
  have hnd : (sortCharts (mapKeys m)).Nodup :=
    ((perm_sortCharts (mapKeys m)).nodup_iff).mpr h
  have hp :
      List.Pairwise (fun a b => chartLess b a = false ∧ a ≠ b)
        (sortCharts (mapKeys m)) :=
    (sorted_sortCharts (mapKeys m)).and hnd
  refine (hp.imp ?_).chain'
  intro a b hab
  obtain ⟨hle, hne⟩ := hab
  rw [chartLess_eq_false_iff] at hle
  have hlt : keyLex a < keyLex b :=
    lt_of_le_of_ne hle fun hc => hne (keyLex_injective hc)
  rw [keyLex, keyLex, Prod.Lex.lt_iff] at hlt
  simpa [mkEntry] using hlt

/-- Claim C5, witness: a three-entry map with distinct keys, including two
versions of the same chart whose byte-wise order ("10" before "2") differs
from numeric order. -/
theorem catalog_strictly_sorted_witness :
    (mapKeys [(⟨"b", "1"⟩, ⟨1, 1⟩), (⟨"a", "2"⟩, ⟨2, 2⟩),
              (⟨"a", "10"⟩, ⟨3, 3⟩)]).Nodup ∧
    List.Chain'
      (fun e₁ e₂ => e₁.name < e₂.name ∨
        (e₁.name = e₂.name ∧ e₁.apiVersion < e₂.apiVersion))
      (deriveCatalog [(⟨"b", "1"⟩, ⟨1, 1⟩), (⟨"a", "2"⟩, ⟨2, 2⟩),
                      (⟨"a", "10"⟩, ⟨3, 3⟩)]) :=
  ⟨by decide,
   catalog_strictly_sorted
     [(⟨"b", "1"⟩, ⟨1, 1⟩), (⟨"a", "2"⟩, ⟨2, 2⟩), (⟨"a", "10"⟩, ⟨3, 3⟩)]
     (by decide)⟩

/-- Claim C6.  The emission loop writes the chart version into the metadata's
`ApiVersion` field and never sets `Version`: for the key `("foo", "1.0.0")`
the derived catalog's only entry declares name `"foo"` but version `""` — no
entry declares version `"1.0.0"`. -/
theorem catalog_entry_version_field_is_empty :
    deriveCatalog [(⟨"foo", "1.0.0"⟩, ⟨5, 42⟩)]
      = [{ name := "foo", version := "", apiVersion := "1.0.0"
           baseUrl := "/chart/foo/1.0.0", filename := "chart.tgz"
           digest := "deadbeef" }] ∧
    ∀ e ∈ deriveCatalog [(⟨"foo", "1.0.0"⟩, ⟨5, 42⟩)], e.version ≠ "1.0.0" := by
  refine ⟨by decide, by decide⟩

/-- Claim C7, counterexample.  The synthesized download path is built with
`fmt.Sprintf("/chart/%s/%s", name, version)`: for key `("foo", "1.0.0")` the
sole catalog entry carries `"/chart/foo/1.0.0"` and no entry carries the
claimed `"/foo/1.0.0"`. -/
theorem download_path_counterexample :
    (deriveCatalog [(⟨"foo", "1.0.0"⟩, ⟨5, 42⟩)]).map CatalogEntry.baseUrl
      = ["/chart/foo/1.0.0"] ∧
    ∀ e ∈ deriveCatalog [(⟨"foo", "1.0.0"⟩, ⟨5, 42⟩)],
      e.baseUrl ≠ "/foo/1.0.0" := by
  refine ⟨by decide, by decide⟩

/-- Claim C7, amended: for every `(name, version)` key recorded in the
VersionIndex, the derived catalog contains an entry for it whose synthesized
download path is `"/chart/" ++ name ++ "/" ++ version`. -/
theorem download_path_has_chart_segment (m : VersionCommitMap)
    (k : ChartNameVersion) (info : CommitInfo) (h : (k, info) ∈ m) :
    ∃ e ∈ deriveCatalog m, e.name = k.name ∧ e.apiVersion = k.version ∧
      e.baseUrl = "/chart/" ++ k.name ++ "/" ++ k.version := by
  have hk : k ∈ mapKeys m := by
    unfold mapKeys
    exact List.mem_map_of_mem Prod.fst h
  have hk2 : k ∈ sortCharts (mapKeys m) :=
    ((perm_sortCharts (mapKeys m)).mem_iff).mpr hk
  refine ⟨mkEntry k, ?_, rfl, rfl, rfl⟩
  unfold deriveCatalog deriveCatalogWith mkCatalog
  exact List.mem_map_of_mem mkEntry hk2

/-- Claim C7, witness for the amended theorem at a concrete recorded key. -/
theorem download_path_has_chart_segment_witness :
    ((⟨"foo", "1.0.0"⟩ : ChartNameVersion), (⟨5, 42⟩ : CommitInfo))
        ∈ [((⟨"foo", "1.0.0"⟩ : ChartNameVersion), (⟨5, 42⟩ : CommitInfo))] ∧
    ∃ e ∈ deriveCatalog [(⟨"foo", "1.0.0"⟩, ⟨5, 42⟩)],
      e.name = "foo" ∧ e.apiVersion = "1.0.0" ∧
      e.baseUrl = "/chart/" ++ "foo" ++ "/" ++ "1.0.0" :=
  ⟨by decide,
   download_path_has_chart_segment _ ⟨"foo", "1.0.0"⟩ ⟨5, 42⟩ (by decide)⟩

/-- Claim C8.  The walk is a deterministic function of the repository trace
(it is modelled as such, and the source's walk reads only the trace), so two
runs over an identical trace produce the same `versionCommitMap`; the only
nondeterminism in the source is the Go map enumeration order at the start of
catalog derivation, and the derived index — catalog and map alike — is
invariant under it: the comparator is a strict total order on keys, so the
sorted key list, and with it the emitted catalog, is unique. -/
theorem derived_index_independent_of_enumeration (m : VersionCommitMap)
    (e₁ e₂ : List ChartNameVersion)
    (h₁ : e₁.Perm (mapKeys m)) (h₂ : e₂.Perm (mapKeys m)) :
    deriveIndexWith e₁ m = deriveIndexWith e₂ m := by
  unfold deriveIndexWith deriveCatalogWith
  rw [sortCharts_perm_eq (h₁.trans h₂.symm)]

/-- Claim C8, witness: two opposite enumerations of a two-key map. -/
theorem derived_index_independent_of_enumeration_witness :
    ([⟨"a", "1"⟩, ⟨"b", "2"⟩] : List ChartNameVersion).Perm
        (mapKeys [(⟨"a", "1"⟩, ⟨1, 1⟩), (⟨"b", "2"⟩, ⟨2, 2⟩)]) ∧
    ([⟨"b", "2"⟩, ⟨"a", "1"⟩] : List ChartNameVersion).Perm
        (mapKeys [(⟨"a", "1"⟩, ⟨1, 1⟩), (⟨"b", "2"⟩, ⟨2, 2⟩)]) ∧
    deriveIndexWith [⟨"a", "1"⟩, ⟨"b", "2"⟩]
        [(⟨"a", "1"⟩, ⟨1, 1⟩), (⟨"b", "2"⟩, ⟨2, 2⟩)]
      = deriveIndexWith [⟨"b", "2"⟩, ⟨"a", "1"⟩]
          [(⟨"a", "1"⟩, ⟨1, 1⟩), (⟨"b", "2"⟩, ⟨2, 2⟩)] :=
  ⟨by decide, by decide,
   derived_index_independent_of_enumeration
     [(⟨"a", "1"⟩, ⟨1, 1⟩), (⟨"b", "2"⟩, ⟨2, 2⟩)]
     [⟨"a", "1"⟩, ⟨"b", "2"⟩] [⟨"b", "2"⟩, ⟨"a", "1"⟩]
     (by decide) (by decide)⟩

/-- Every error `getChartVersion` produces comes from an external collaborator:
its error component is either nil or an injected `ExtError`.  It can never be
the package-local sentinel, which no code path of the function returns. -/
theorem getChartVersion_error_shape (x : DirEntry) :
    (getChartVersion x).2 = none ∨
      ∃ e, (getChartVersion x).2 = some (GoError.ext e) := by
  unfold getChartVersion
  rcases x.lstat with e | fi
  · exact Or.inr ⟨e, rfl⟩
  · rcases hd : fi.isDir with _ | _
    · simp [hd]
    · simp only [hd, Bool.not_true, Bool.false_eq_true, if_false]
      rcases x.openChartYaml with e | u
      · exact Or.inr ⟨e, rfl⟩
      · rcases x.readAll with e | u₂
        · exact Or.inr ⟨e, rfl⟩
        · rcases x.unmarshal with e | y
          · exact Or.inr ⟨e, rfl⟩
          · exact Or.inl rfl

/-- Claim C9.  `getChartVersion` never returns the sentinel
`ErrChartNotFound`, so the skip branch of the candidate loop is dead: whenever
`getChartVersion` reports an error, processing the candidate list returns that
error immediately, aborting the build. -/
theorem chartNotFound_skip_branch_unreachable (x : DirEntry) :
    (getChartVersion x).2 ≠ some GoError.chartNotFound ∧
    ∀ (c : Commit) (rest : List DirEntry) (m : VersionCommitMap) (e : GoError),
      (getChartVersion x).2 = some e →
        processEntries c (x :: rest) m = Except.error e := by
  constructor
  · rcases getChartVersion_error_shape x with h | ⟨e, h⟩ <;> simp [h]
  · intro c rest m e he
    rcases getChartVersion_error_shape x with h | ⟨e', h⟩
    · rw [h] at he
      exact absurd he (by simp)
    · rw [h] at he
      injection he with he₂
      subst he₂
      have hx : getChartVersion x = ((getChartVersion x).1, some (GoError.ext e')) := by
        rw [← h]
      rw [processEntries, hx]
      simp

/-- Claim C9, witness: a candidate whose `Lstat` fails; the error propagates
out of the candidate loop unchanged. -/
theorem chartNotFound_skip_branch_unreachable_witness :
    (getChartVersion lstatFailEntry).2 = some (GoError.ext (.fs "lstat failure")) ∧
    processEntries ⟨0, 0⟩ [lstatFailEntry] []
      = Except.error (GoError.ext (.fs "lstat failure")) :=
  ⟨rfl,
   (chartNotFound_skip_branch_unreachable lstatFailEntry).2 ⟨0, 0⟩ [] [] _ rfl⟩

/-- Claim C10.  A candidate that exists but is not a directory makes
`getChartVersion` return the empty version with a nil error (the source
returns the nil `err` of the successful `Lstat` in that branch), and the walk
then records the pair `(entry name, "")` in the map, bound to the current
commit's timestamp and hash. -/
theorem non_directory_recorded_with_empty_version (x : DirEntry)
    (fi : FileInfo) (hx : x.lstat = .ok fi) (hd : fi.isDir = false)
    (c : Commit) (rest : List DirEntry) (m : VersionCommitMap) :
    getChartVersion x = ("", none) ∧
    processEntries c (x :: rest) m
      = processEntries c rest
          (mapSet m ⟨x.name, ""⟩ ⟨c.committerWhen, c.hash⟩) ∧
    mapFind (mapSet m ⟨x.name, ""⟩ ⟨c.committerWhen, c.hash⟩) ⟨x.name, ""⟩
      = some ⟨c.committerWhen, c.hash⟩ := by
  have h₁ : getChartVersion x = ("", none) := by
    unfold getChartVersion
    rw [hx]
    simp [hd]
  refine ⟨h₁, ?_, mapFind_mapSet_self m ⟨x.name, ""⟩ ⟨c.committerWhen, c.hash⟩⟩
  rw [processEntries, h₁]
  rfl

/-- Claim C10, witness: a stray file under the base path is recorded under the
key `("README.md", "")`, pinned to the commit being walked. -/
theorem non_directory_recorded_with_empty_version_witness :
    nonDirEntry.lstat = .ok ⟨false⟩ ∧ (⟨false⟩ : FileInfo).isDir = false ∧
    (getChartVersion nonDirEntry = ("", none) ∧
     processEntries ⟨7, 3⟩ [nonDirEntry] []
       = processEntries ⟨7, 3⟩ []
           (mapSet [] ⟨"README.md", ""⟩ ⟨3, 7⟩) ∧
     mapFind (mapSet [] ⟨"README.md", ""⟩ ⟨3, 7⟩) ⟨"README.md", ""⟩
       = some ⟨3, 7⟩) :=
  ⟨rfl, rfl,
   non_directory_recorded_with_empty_version nonDirEntry ⟨false⟩ rfl rfl
     ⟨7, 3⟩ [] []⟩

end ChartStreams
